import Mathlib

/-!
Verification of the Change Tracker text-metrics engine and its `App.tsx`
comparison handler.

The repository ships the `AnalysisResult` record declaration and the UI-level
caller (`App.tsx`); the text-metrics engine itself (`textAnalysisService`) is
not part of the available sources, so the engine components below are modelled
from the specification (sections 3, 4, 7 and 8 of the design document), while
`getDelta` and `handleCompare` are translated directly from `src/App.tsx`.

Numbers are modelled by `ℚ` (the JavaScript engine computes with IEEE doubles;
the rational model keeps every formula exact, and the guard structure - which
is what the divide-by-zero claims are about - is identical). Square roots,
which occur only inside the SMOG index and the corrected type-token ratio, are
modelled by a computable rational square-root approximation; no claim depends
on the value of a square root, only on the zero-guards around it.
-/

namespace ChangeTracker

/-- Words are modelled as lists of characters (the shallow embedding of the
JavaScript strings the engine manipulates). -/
abbrev Word := List Char

/-- Conversion from a Lean string literal to the character-list model. -/
def toL (s : String) : List Char := s.data

/-- Modelled from the spec: the whitespace characters recognised by the
missing Tokenizer when splitting words and detecting blank lines. -/
def isWhitespaceChar (c : Char) : Bool :=
  c == ' ' || c == '\t' || c == '\n' || c == '\r'

/-- Prepends a character to the first line of a line list (helper for
`linesOf`). -/
def consHead (c : Char) : List (List Char) → List (List Char)
  | [] => [[c]]
  | l :: ls => (c :: l) :: ls

/-- Modelled from the spec: line splitting (on the newline character) used by
the missing Tokenizer's paragraph segmentation. -/
def linesOf : List Char → List (List Char)
  | [] => [[]]
  | c :: rest => if c == '\n' then [] :: linesOf rest else consHead c (linesOf rest)

/-- Joins the lines of one paragraph back into a single character sequence. -/
def joinLines (ls : List (List Char)) : List Char :=
  (List.intersperse ['\n'] ls).flatten

/-- Modelled from the spec: grouping of maximal runs of non-blank lines into
paragraphs ("boundary determined by blank-line separation"); `cur` holds the
lines of the paragraph being accumulated, in reverse order. -/
def groupParasAux : List (List Char) → List (List Char) → List (List Char)
  | cur, [] => if cur.isEmpty then [] else [joinLines cur.reverse]
  | cur, line :: rest =>
    if line.all isWhitespaceChar then
      if cur.isEmpty then groupParasAux [] rest
      else joinLines cur.reverse :: groupParasAux [] rest
    else groupParasAux (line :: cur) rest

/-- Modelled from the spec: the missing Tokenizer's paragraph segmentation,
splitting the raw text on blank lines; empty input yields zero paragraphs. -/
def paragraphsOf (t : List Char) : List (List Char) :=
  groupParasAux [] (linesOf t)

/-- Modelled from the spec: the fixed abbreviation list before whose trailing
period sentence splitting does not break (the spec names "Mr", "Dr", "etc" as
examples; the exact list is configuration data not fixed by any artifact). -/
def abbreviationWords : List Word :=
  ["mr", "mrs", "ms", "dr", "prof", "sr", "jr", "st", "etc", "vs", "eg", "ie",
   "inc", "ltd", "co", "fig", "no", "al"].map toL

/-- Tests whether a character list starts with a period (lookahead helper for
the ellipsis rule). -/
def headIsDot : List Char → Bool
  | c :: _ => c == '.'
  | [] => false

/-- Tests whether a character list starts with a digit (lookahead helper for
the decimal rule). -/
def headIsDigit : List Char → Bool
  | c :: _ => c.isDigit
  | [] => false

/-- Extracts the case-folded alphabetic token immediately preceding the
current position (helper for the abbreviation rule). -/
def lastWordOf (cur : List Char) : Word :=
  ((cur.reverse.takeWhile Char.isAlpha).reverse).map Char.toLower

/-- Modelled from the spec: the missing Tokenizer's sentence scanner. It
splits on terminal punctuation, treating a period as a non-boundary when it is
part of an ellipsis, embedded in a decimal number, or preceded by a known
abbreviation; content without terminal punctuation is flushed as one final
sentence. -/
def splitSentencesAux : Char → List Char → List Char → List (List Char)
  | _, cur, [] => [cur]
  | prev, cur, c :: rest =>
    if c == '!' || c == '?' then
      (cur ++ [c]) :: splitSentencesAux c [] rest
    else if c == '.' then
      if prev == '.' || headIsDot rest || (prev.isDigit && headIsDigit rest)
          || abbreviationWords.contains (lastWordOf cur) then
        splitSentencesAux c (cur ++ [c]) rest
      else (cur ++ [c]) :: splitSentencesAux c [] rest
    else splitSentencesAux c (cur ++ [c]) rest

/-- Accumulates whitespace-separated raw tokens of a sentence. -/
def rawTokensAux : List Char → List Char → List (List Char)
  | cur, [] => if cur.isEmpty then [] else [cur]
  | cur, c :: rest =>
    if isWhitespaceChar c then
      if cur.isEmpty then rawTokensAux [] rest else cur :: rawTokensAux [] rest
    else rawTokensAux (cur ++ [c]) rest

/-- Modelled from the spec: token normalisation - strip leading and trailing
punctuation (keeping internal hyphens and apostrophes, which only edge
stripping can remove) and case-fold. -/
def normalizeToken (w : List Char) : Word :=
  (((w.dropWhile (fun c => !c.isAlphanum)).reverse.dropWhile
      (fun c => !c.isAlphanum)).reverse).map Char.toLower

/-- Modelled from the spec: the words of one sentence - whitespace splitting,
punctuation stripping, case folding, and removal of tokens that normalise to
nothing. -/
def wordsOf (s : List Char) : List Word :=
  ((rawTokensAux [] s).map normalizeToken).filter (fun w => !w.isEmpty)

/-- Modelled from the spec: the sentences of one paragraph; fragments that
contain no word (for instance a bare ellipsis) are not sentences. -/
def sentencesOfPara (p : List Char) : List (List Char) :=
  (splitSentencesAux ' ' [] p).filter (fun s => !(wordsOf s).isEmpty)

/-- Modelled from the spec: all sentences of the input text, in order. -/
def sentencesOf (t : List Char) : List (List Char) :=
  ((paragraphsOf t).map sentencesOfPara).flatten

/-- Modelled from the spec: all normalised words of the input text, in
order. -/
def allWordsOf (t : List Char) : List Word :=
  ((sentencesOf t).map wordsOf).flatten

/-- Modelled from the spec: the vowel letters used by the missing
SyllableEstimator's vowel-group counting. -/
def isVowelChar (c : Char) : Bool :=
  c == 'a' || c == 'e' || c == 'i' || c == 'o' || c == 'u' || c == 'y'

/-- Counts maximal runs of vowel letters; `prevVowel` records whether the
previous character was a vowel. -/
def vowelGroupsAux : Bool → List Char → Nat
  | _, [] => 0
  | prevVowel, c :: rest =>
    (if isVowelChar c && !prevVowel then 1 else 0) + vowelGroupsAux (isVowelChar c) rest

/-- Modelled from the spec: number of maximal vowel-letter runs in a word. -/
def vowelGroups (w : Word) : Nat := vowelGroupsAux false w

/-- Modelled from the spec: the short fixed exception list of common irregular
words whose syllable count the estimator fixes directly. -/
def syllableOverride (w : Word) : Option Nat :=
  if w = toL "the" then some 1
  else if w = toL "every" then some 2
  else if w = toL "different" then some 3
  else if w = toL "interesting" then some 4
  else if w = toL "evening" then some 3
  else if w = toL "beautiful" then some 3
  else none

/-- Modelled from the spec: the missing SyllableEstimator. Vowel groups count
one syllable each, a silent trailing "e" drops one unless that would leave
zero, the exception list overrides, and every non-empty word counts at least
one syllable. -/
def syllables (w : Word) : Nat :=
  if w.isEmpty then 0
  else
    match syllableOverride w with
    | some n => n
    | none =>
      let g := vowelGroups w
      let g2 := if w.getLast? = some 'e' ∧ 1 < g then g - 1 else g
      max 1 g2

/-- Modelled from the spec: the fixed function-word (stopword) list excluded
from content-word and frequency analysis; the exact published list is left
open by the spec. -/
def stopwords : List Word :=
  ["the", "a", "an", "and", "or", "but", "if", "then", "of", "to", "in", "on",
   "at", "by", "for", "with", "is", "are", "was", "were", "be", "been",
   "being", "it", "its", "this", "that", "these", "those", "i", "you", "he",
   "she", "we", "they", "as", "from", "not", "no", "so", "do", "does", "did",
   "have", "has", "had", "will", "would", "can", "could", "should", "my",
   "your", "his", "her", "their", "our"].map toL

/-- Modelled from the spec: the fixed familiar-word reference list used by the
Dale-Chall formula (the spec leaves the exact roughly-3000-word published list
open; a small representative list is fixed here). -/
def familiarWords : List Word :=
  ["the", "a", "an", "and", "or", "but", "of", "to", "in", "on", "at", "by",
   "for", "with", "is", "are", "was", "were", "be", "it", "this", "that", "i",
   "you", "he", "she", "we", "they", "cat", "dog", "run", "ran", "sat", "sit",
   "mat", "ball", "man", "woman", "boy", "girl", "day", "night", "good",
   "bad", "big", "small", "old", "new", "see", "saw", "go", "went", "come",
   "came", "make", "made", "say", "said", "time", "home"].map toL

/-- Modelled from the spec: the short exception list of common multi-syllable
words not counted as "complex" by the Gunning Fog index. -/
def complexWordExceptions : List Word :=
  ["everything", "anything", "something", "everyone", "anyone", "someone",
   "however", "another", "really", "interesting"].map toL

/-- Modelled from the spec: auxiliary "be" forms anchoring the passive-voice
heuristic. -/
def beForms : List Word :=
  ["is", "was", "were", "be", "been", "being", "are", "am"].map toL

/-- Modelled from the spec: the short irregular-participle list completing the
passive-voice heuristic's participle shape test. -/
def irregularParticiples : List Word :=
  ["thrown", "written", "taken", "given", "seen", "known", "made", "done",
   "said", "found", "told", "built", "sent", "held", "kept", "left", "put",
   "read", "set", "shown", "broken", "chosen", "driven", "eaten", "spoken",
   "stolen", "worn", "drawn", "grown", "begun", "sung", "won", "lost",
   "paid", "sold", "bought", "brought", "caught", "taught", "felt",
   "understood"].map toL

/-- Modelled from the spec: coordinating conjunctions joining independent
clauses in the sentence-structure heuristic. -/
def coordinatingConjunctions : List Word :=
  ["and", "but", "or", "so", "yet", "for", "nor"].map toL

/-- Modelled from the spec: subordinating conjunctions introducing dependent
clauses in the sentence-structure heuristic. -/
def subordinatingConjunctions : List Word :=
  ["because", "although", "since", "while", "if", "when", "after", "before",
   "unless", "until", "though", "whereas", "whenever", "wherever"].map toL

/-- Modelled from the spec: relative pronouns introducing dependent clauses in
the sentence-structure heuristic. -/
def relativePronouns : List Word :=
  ["which", "that", "who", "whose", "whom"].map toL

/-- Modelled from the spec: the fixed weak-word ("filler") list. -/
def weakWords : List Word :=
  ["very", "really", "just", "actually", "quite", "rather", "somewhat",
   "basically", "literally", "simply", "totally"].map toL

/-- Modelled from the spec: the exclusion list of common words ending in "ly"
that are not counted as adverbs. -/
def lyExclusions : List Word :=
  ["only", "family", "early", "likely", "friendly", "ugly", "supply",
   "apply", "reply", "italy", "july", "fly", "ally", "belly", "bully",
   "jelly", "rally", "silly"].map toL

/-- Computable rational square-root approximation (the JavaScript engine uses
a floating-point square root; the claims depend only on the guards around this
operation, never on its value). -/
def ratSqrt (q : ℚ) : ℚ :=
  (Nat.sqrt (q.num.toNat * q.den) : ℚ) / (q.den : ℚ)

/-- Modelled from the spec: average sentence length, wordCount over
sentenceCount, 0 when there is no sentence. -/
def avgSentenceLengthOf (W S : Nat) : ℚ :=
  if S = 0 then 0 else (W : ℚ) / (S : ℚ)

/-- Modelled from the spec: Flesch Reading Ease with the S = 0 or W = 0
guard. -/
def fleschReadingEaseOf (W S Syl : Nat) : ℚ :=
  if S = 0 ∨ W = 0 then 0
  else 206.835 - 1.015 * ((W : ℚ) / (S : ℚ)) - 84.6 * ((Syl : ℚ) / (W : ℚ))

/-- Modelled from the spec: Flesch-Kincaid Grade with the S = 0 or W = 0
guard. -/
def fleschKincaidGradeOf (W S Syl : Nat) : ℚ :=
  if S = 0 ∨ W = 0 then 0
  else 0.39 * ((W : ℚ) / (S : ℚ)) + 11.8 * ((Syl : ℚ) / (W : ℚ)) - 15.59

/-- Modelled from the spec: Gunning Fog index with the S = 0 or W = 0
guard. -/
def gunningFogOf (W S CW : Nat) : ℚ :=
  if S = 0 ∨ W = 0 then 0
  else 0.4 * (((W : ℚ) / (S : ℚ)) + 100 * ((CW : ℚ) / (W : ℚ)))

/-- Modelled from the spec: SMOG index with the S = 0 or W = 0 guard (the
square root is approximated rationally; see `ratSqrt`). -/
def smogIndexOf (W S CW : Nat) : ℚ :=
  if S = 0 ∨ W = 0 then 0
  else 1.0430 * ratSqrt ((CW : ℚ) * 30 / (S : ℚ)) + 3.1291

/-- Modelled from the spec: Dale-Chall score with the S = 0 or W = 0 guard and
the 3.6365 adjustment exactly when the difficult-word ratio exceeds 0.05. -/
def daleChallOf (W S DW : Nat) : ℚ :=
  if S = 0 ∨ W = 0 then 0
  else
    0.1579 * ((DW : ℚ) / (W : ℚ) * 100) + 0.0496 * ((W : ℚ) / (S : ℚ)) +
      (if 0.05 < (DW : ℚ) / (W : ℚ) then 3.6365 else 0)

/-- Modelled from the spec: lexical density, content words over total words as
a percentage, with the W = 0 guard. -/
def lexicalDensityOf (W CWd : Nat) : ℚ :=
  if W = 0 then 0 else (CWd : ℚ) / (W : ℚ) * 100

/-- Modelled from the spec: corrected type-token ratio, distinct words over
the square root of twice the word count, with the W = 0 guard. -/
def lexicalDiversityOf (W D : Nat) : ℚ :=
  if W = 0 then 0 else (D : ℚ) / ratSqrt (2 * (W : ℚ))

/-- Modelled from the spec: list of distinct words in first-occurrence order
(the missing LexicalAnalyzer's type inventory for frequency and diversity). -/
def dedupFirst : List Word → List Word
  | [] => []
  | a :: l => a :: dedupFirst (l.filter (fun b => b ≠ a))
termination_by l => l.length
decreasing_by
  simp only [List.length_cons]
  exact Nat.lt_succ_of_le (List.length_filter_le _ _)

/-- Index of the first occurrence of a word in a word sequence (the sequence
length when absent); the tie-break key of the frequency ordering. -/
def firstIndexIn (ws : List Word) (w : Word) : Nat :=
  match ws with
  | [] => 0
  | a :: l => if a = w then 0 else firstIndexIn l w + 1

/-- Modelled from the spec: the frequency ordering - descending by count,
ties broken by first occurrence in the word sequence `ws`. -/
def freqRel (ws : List Word) (a b : Word × Nat) : Prop :=
  b.2 < a.2 ∨ (a.2 = b.2 ∧ firstIndexIn ws a.1 ≤ firstIndexIn ws b.1)

instance (ws : List Word) : DecidableRel (freqRel ws) := fun a b => by
  unfold freqRel; infer_instance

instance freqRelTotal (ws : List Word) : IsTotal (Word × Nat) (freqRel ws) := by
  constructor; intro a b; unfold freqRel; omega

instance freqRelTrans (ws : List Word) : IsTrans (Word × Nat) (freqRel ws) := by
  constructor; intro a b c; unfold freqRel; omega

/-- Modelled from the spec: one frequency entry per distinct non-stopword, in
first-occurrence order, carrying its occurrence count. -/
def freqEntries (ws : List Word) : List (Word × Nat) :=
  ((dedupFirst ws).filter (fun w => !(stopwords.contains w))).map
    (fun w => (w, ws.count w))

/-- Modelled from the spec: the ranked word-frequency table - entries sorted
descending by count with first-occurrence tie-break, truncated to the top
20. -/
def wordFrequencyOf (ws : List Word) : List (Word × Nat) :=
  (List.insertionSort (freqRel ws) (freqEntries ws)).take 20

/-- Tests whether a word is an auxiliary "be" form. -/
def isBeForm (w : Word) : Bool := beForms.contains w

/-- Modelled from the spec: past-participle shape - ends in "ed" or appears
in the irregular-participle list. -/
def isParticipleShaped (w : Word) : Bool :=
  (toL "ed").isSuffixOf w || irregularParticiples.contains w

/-- Modelled from the spec: scans a word sequence for a "be" form followed
within a three-token window by a participle-shaped word. -/
def hasPassiveMarker : List Word → Bool
  | [] => false
  | w :: rest =>
    (isBeForm w && (rest.take 3).any isParticipleShaped) || hasPassiveMarker rest

/-- Modelled from the spec: the passive-voice heuristic for one sentence. -/
def sentenceIsPassive (s : List Char) : Bool :=
  hasPassiveMarker (wordsOf s)

/-- The four sentence-structure classes of the spec's data model. -/
inductive StructureClass where
  | simple
  | compound
  | complex
  | compoundComplex
deriving DecidableEq

/-- Modelled from the spec: the sentence-structure heuristic - independent
clauses are one plus the coordinating conjunctions and semicolons, dependent
clauses are subordinating conjunctions and relative pronouns; two or more
independent clauses make the sentence compound, one or more dependent clauses
make it complex. -/
def classifySentence (s : List Char) : StructureClass :=
  let ws := wordsOf s
  let indep := 1 + ws.countP (fun w => coordinatingConjunctions.contains w) + s.count ';'
  let dep := ws.countP
    (fun w => subordinatingConjunctions.contains w || relativePronouns.contains w)
  if 2 ≤ indep then
    if 1 ≤ dep then StructureClass.compoundComplex else StructureClass.compound
  else
    if 1 ≤ dep then StructureClass.complex else StructureClass.simple

/-- The sentence-structure count record of `AnalysisResult` (from the
repository's type declaration). -/
structure SentenceStructure where
  simple : Nat
  compound : Nat
  complex : Nat
  compoundComplex : Nat
deriving DecidableEq

/-- Modelled from the spec: packs the per-sentence classifications into the
four structure counters. -/
def structCountsOf (cs : List StructureClass) : SentenceStructure where
  simple := cs.countP (fun c => decide (c = StructureClass.simple))
  compound := cs.countP (fun c => decide (c = StructureClass.compound))
  complex := cs.countP (fun c => decide (c = StructureClass.complex))
  compoundComplex := cs.countP (fun c => decide (c = StructureClass.compoundComplex))

/-- Modelled from the spec: weak-word and adverb hits - fixed weak-word list
plus "ly"-suffixed words outside the exclusion list. -/
def weakWordCountOf (ws : List Word) : Nat :=
  ws.countP (fun w =>
    weakWords.contains w || ((toL "ly").isSuffixOf w && !(lyExclusions.contains w)))

/-- The analysis record produced once per input text, translated from the
repository's type declaration (every numeric field is a JavaScript number,
modelled by Nat for the counts and by the rationals for the scores). -/
structure AnalysisResult where
  wordCount : Nat
  paragraphCount : Nat
  sentenceCount : Nat
  avgSentenceLength : ℚ
  fleschReadingEase : ℚ
  fleschKincaidGrade : ℚ
  gunningFog : ℚ
  smogIndex : ℚ
  daleChall : ℚ
  lexicalDensity : ℚ
  lexicalDiversity : ℚ
  wordFrequency : List (Word × Nat)
  passiveVoiceCount : Nat
  sentenceStructure : SentenceStructure
  weakWordCount : Nat
deriving DecidableEq

/-- Modelled from the spec: total syllable count of the text. -/
def totalSyllablesOf (t : List Char) : Nat :=
  ((allWordsOf t).map syllables).sum

/-- Modelled from the spec: count of complex words (three or more syllables,
excluding the common-exception list). -/
def complexWordCountOf (t : List Char) : Nat :=
  (allWordsOf t).countP
    (fun w => decide (3 ≤ syllables w) && !(complexWordExceptions.contains w))

/-- Modelled from the spec: count of words absent from the familiar-word
reference list (the Dale-Chall difficult words). -/
def difficultWordCountOf (t : List Char) : Nat :=
  ((allWordsOf t).filter (fun w => !(familiarWords.contains w))).length

/-- Modelled from the spec: count of content words, those not on the stopword
list. -/
def contentWordCountOf (t : List Char) : Nat :=
  ((allWordsOf t).filter (fun w => !(stopwords.contains w))).length

/-- Modelled from the spec: number of distinct case-folded words. -/
def distinctWordCountOf (t : List Char) : Nat :=
  (dedupFirst (allWordsOf t)).length

/-- Modelled from the spec: the missing engine entry point
(`analyzeText` of `textAnalysisService`) - the pure Aggregator that tokenizes
the text and packs every component's output into one `AnalysisResult`. -/
def analyze (t : List Char) : AnalysisResult where
  wordCount := (allWordsOf t).length
  paragraphCount := (paragraphsOf t).length
  sentenceCount := (sentencesOf t).length
  avgSentenceLength := avgSentenceLengthOf (allWordsOf t).length (sentencesOf t).length
  fleschReadingEase :=
    fleschReadingEaseOf (allWordsOf t).length (sentencesOf t).length (totalSyllablesOf t)
  fleschKincaidGrade :=
    fleschKincaidGradeOf (allWordsOf t).length (sentencesOf t).length (totalSyllablesOf t)
  gunningFog :=
    gunningFogOf (allWordsOf t).length (sentencesOf t).length (complexWordCountOf t)
  smogIndex :=
    smogIndexOf (allWordsOf t).length (sentencesOf t).length (complexWordCountOf t)
  daleChall :=
    daleChallOf (allWordsOf t).length (sentencesOf t).length (difficultWordCountOf t)
  lexicalDensity := lexicalDensityOf (allWordsOf t).length (contentWordCountOf t)
  lexicalDiversity := lexicalDiversityOf (allWordsOf t).length (distinctWordCountOf t)
  wordFrequency := wordFrequencyOf (allWordsOf t)
  passiveVoiceCount := (sentencesOf t).countP sentenceIsPassive
  sentenceStructure := structCountsOf ((sentencesOf t).map classifySentence)
  weakWordCount := weakWordCountOf (allWordsOf t)

/-- The engine on Lean string input. -/
def analyzeText (s : String) : AnalysisResult := analyze (toL s)

/-- The comparison record holding the two analyses, translated from the
repository's type declaration. -/
structure AnalysisComparison where
  original : AnalysisResult
  revised : AnalysisResult
deriving DecidableEq

/-- JavaScript's Number.toFixed with one fraction digit (used by `getDelta` in
`src/App.tsx`): sign of the value, then the integer nearest to ten times the
magnitude - ties toward the larger integer - printed with one digit after the
point. -/
def toFixed1 (x : ℚ) : String :=
  let sgn := if x < 0 then "-" else ""
  let n : ℤ := ⌊|x| * 10 + 1 / 2⌋
  sgn ++ toString (n.ediv 10) ++ "." ++ toString (n.emod 10)

/-- Translated from `src/App.tsx` (`getDelta` inside `handleCompare`): the
percentage-change string between two metric values; a zero baseline reports
"+100.0%" for any positive revised value and "0.0%" otherwise. -/
def getDelta (original revised : ℚ) : String :=
  if original = 0 then (if 0 < revised then "+100.0%" else "0.0%")
  else
    let change := (revised - original) / original * 100
    (if 0 ≤ change then "+" else "") ++ toFixed1 change ++ "%"

/-- Translated from `src/App.tsx`: the Gemini prompt assembled by
`handleCompare` from the two input texts and the statistical deltas. -/
def buildPrompt (originalText revisedText : String) (c : AnalysisComparison) : String :=
  "You are an expert editor providing a qualitative analysis of changes between two text documents.\n"
    ++ "Based on the provided texts and the statistical analysis below, generate a concise, human-readable \"High-Level Overview\" of the changes.\n"
    ++ "Synthesize the data into an executive summary. Use Markdown for formatting (e.g., headers, bold text, lists).\n"
    ++ "Describe the key shifts in structure, readability, vocabulary, and style.\n"
    ++ "Explain *how* and *why* the changes matter.\n\n"
    ++ "**Statistical Deltas:**\n"
    ++ "- Total Word Count: "
    ++ getDelta (c.original.wordCount : ℚ) (c.revised.wordCount : ℚ) ++ "\n"
    ++ "- Average Sentence Length: "
    ++ getDelta c.original.avgSentenceLength c.revised.avgSentenceLength ++ "\n"
    ++ "- Flesch Reading Ease: "
    ++ getDelta c.original.fleschReadingEase c.revised.fleschReadingEase
    ++ " (Higher is easier)\n"
    ++ "- Flesch-Kincaid Grade Level: "
    ++ getDelta c.original.fleschKincaidGrade c.revised.fleschKincaidGrade ++ "\n"
    ++ "- Passive Voice Sentences: "
    ++ getDelta (c.original.passiveVoiceCount : ℚ) (c.revised.passiveVoiceCount : ℚ) ++ "\n"
    ++ "- Lexical Density: "
    ++ getDelta c.original.lexicalDensity c.revised.lexicalDensity
    ++ " (Higher is more informative)\n"
    ++ "- Lexical Diversity: "
    ++ getDelta c.original.lexicalDiversity c.revised.lexicalDiversity
    ++ " (Higher is richer vocabulary)\n\n"
    ++ "**Original Text:**\n---\n" ++ originalText ++ "\n---\n\n"
    ++ "**Revised Text:**\n---\n" ++ revisedText ++ "\n---\n\n"
    ++ "**Your High-Level Overview (in Markdown):**\n"

/-- The slice of the React component state that `handleCompare` reads and
writes (from `src/App.tsx`). -/
structure AppState where
  analysis : Option AnalysisComparison
  aiSummary : String
  err : Option String
  isLoading : Bool

/-- Outcome of one `handleCompare` invocation: the resulting state, how many
times `analyzeText` ran, and the prompt sent to Gemini, if any. -/
structure CompareOutcome where
  state : AppState
  analyzeCalls : Nat
  promptSent : Option String

/-- JavaScript falsiness of the optional API-key environment variable read by
`handleCompare`: missing or the empty string. -/
def envFalsy : Option String → Bool
  | none => true
  | some s => s == ""

/-- Translated from `src/App.tsx` (`handleCompare`): if the API key is not
configured, or either text is empty, set an error message and return without
analyzing; otherwise analyze both texts, store the comparison, build the
Gemini prompt, send it, and store the returned summary. The external Gemini
response is the `summary` parameter. -/
def handleCompare (apiKey : Option String) (originalText revisedText : String)
    (summary : String) (s : AppState) : CompareOutcome :=
  if envFalsy apiKey then
    { state :=
        { s with err := some "A Gemini API key is not configured. Please set the API_KEY environment variable." }
      analyzeCalls := 0
      promptSent := none }
  else if originalText == "" || revisedText == "" then
    { state :=
        { s with err := some "Please provide both original and revised text to compare." }
      analyzeCalls := 0
      promptSent := none }
  else
    let originalAnalysis := analyzeText originalText
    let revisedAnalysis := analyzeText revisedText
    let comparison : AnalysisComparison :=
      { original := originalAnalysis, revised := revisedAnalysis }
    let prompt := buildPrompt originalText revisedText comparison
    { state :=
        { analysis := some comparison
          aiSummary := summary
          err := none
          isLoading := false }
      analyzeCalls := 2
      promptSent := some prompt }

/-! Helper lemmas. -/

theorem structCounts_sum (cs : List StructureClass) :
    (structCountsOf cs).simple + (structCountsOf cs).compound +
      (structCountsOf cs).complex + (structCountsOf cs).compoundComplex = cs.length := by
  induction cs with
  | nil => rfl
  | cons c cs ih =>
    simp only [structCountsOf, List.countP_cons] at ih ⊢
    cases c <;> simp <;> omega

theorem consHead_all_ws (c : Char) (hc : isWhitespaceChar c = true)
    (ls : List (List Char)) (h : ∀ l ∈ ls, l.all isWhitespaceChar = true) :
    ∀ l ∈ consHead c ls, l.all isWhitespaceChar = true := by
  cases ls with
  | nil =>
    intro l hl
    simp only [consHead, List.mem_singleton] at hl
    subst hl
    simp [hc]
  | cons l0 ls =>
    intro l hl
    simp only [consHead, List.mem_cons] at hl
    rcases hl with hl | hl
    · subst hl
      have := h l0 (by simp)
      simp [hc, List.all_cons, this]
    · exact h l (by simp [hl])

theorem linesOf_all_ws : ∀ (t : List Char), t.all isWhitespaceChar = true →
    ∀ l ∈ linesOf t, l.all isWhitespaceChar = true := by
  intro t
  induction t with
  | nil =>
    intro _ l hl
    simp only [linesOf, List.mem_singleton] at hl
    simp [hl]
  | cons c rest ih =>
    intro h l hl
    simp only [List.all_cons, Bool.and_eq_true] at h
    simp only [linesOf] at hl
    by_cases hc : c == '\n'
    · rw [if_pos hc] at hl
      rcases List.mem_cons.mp hl with hl | hl
      · simp [hl]
      · exact ih h.2 l hl
    · rw [if_neg hc] at hl
      exact consHead_all_ws c h.1 (linesOf rest) (ih h.2) l hl

theorem groupParasAux_nil_of_blank : ∀ (lines : List (List Char)),
    (∀ l ∈ lines, l.all isWhitespaceChar = true) → groupParasAux [] lines = [] := by
  intro lines
  induction lines with
  | nil => intro _; rfl
  | cons line rest ih =>
    intro h
    have hline := h line (by simp)
    simp only [groupParasAux, hline, if_pos, List.isEmpty_nil, if_true]
    exact ih (fun l hl => h l (by simp [hl]))

theorem paragraphsOf_eq_nil (t : List Char) (h : t.all isWhitespaceChar = true) :
    paragraphsOf t = [] :=
  groupParasAux_nil_of_blank (linesOf t) (linesOf_all_ws t h)

theorem sentencesOf_eq_nil (t : List Char) (h : t.all isWhitespaceChar = true) :
    sentencesOf t = [] := by
  simp [sentencesOf, paragraphsOf_eq_nil t h]

theorem allWordsOf_eq_nil (t : List Char) (h : t.all isWhitespaceChar = true) :
    allWordsOf t = [] := by
  simp [allWordsOf, sentencesOf_eq_nil t h]

/-! Claim theorems. -/

/-- C1: for every input text, the four sentence-structure counters of the
returned `AnalysisResult` sum exactly to its sentence count. -/
theorem sentence_structure_partition (t : List Char) :
    (analyze t).sentenceStructure.simple + (analyze t).sentenceStructure.compound +
      (analyze t).sentenceStructure.complex +
      (analyze t).sentenceStructure.compoundComplex = (analyze t).sentenceCount := by
  have h1 : (analyze t).sentenceStructure
      = structCountsOf ((sentencesOf t).map classifySentence) := rfl
  have h2 : (analyze t).sentenceCount = (sentencesOf t).length := rfl
  rw [h1, h2, structCounts_sum, List.length_map]

/-- C2: an empty or whitespace-only input is not an error: every count is 0,
every readability and lexical score is 0, and the frequency table is empty
(in this rational-number model no field can be NaN or Infinity; the zero
guards that replace JavaScript division are exercised here). -/
theorem analyze_whitespace_only (t : List Char) (h : t.all isWhitespaceChar = true) :
    (analyze t).wordCount = 0 ∧ (analyze t).sentenceCount = 0 ∧
      (analyze t).paragraphCount = 0 ∧ (analyze t).avgSentenceLength = 0 ∧
      (analyze t).fleschReadingEase = 0 ∧ (analyze t).fleschKincaidGrade = 0 ∧
      (analyze t).gunningFog = 0 ∧ (analyze t).smogIndex = 0 ∧
      (analyze t).daleChall = 0 ∧ (analyze t).lexicalDensity = 0 ∧
      (analyze t).lexicalDiversity = 0 ∧ (analyze t).wordFrequency = [] ∧
      (analyze t).passiveVoiceCount = 0 ∧ (analyze t).weakWordCount = 0 := by
  have hp := paragraphsOf_eq_nil t h
  have hs := sentencesOf_eq_nil t h
  have hw := allWordsOf_eq_nil t h
  refine ⟨?_, ?_, ?_, ?_, ?_, ?_, ?_, ?_, ?_, ?_, ?_, ?_, ?_, ?_⟩ <;>
    simp [analyze, hp, hs, hw, avgSentenceLengthOf, fleschReadingEaseOf,
      fleschKincaidGradeOf, gunningFogOf, smogIndexOf, daleChallOf,
      lexicalDensityOf, lexicalDiversityOf, wordFrequencyOf, freqEntries,
      dedupFirst, weakWordCountOf]

/-- Witness for C2 at a concrete whitespace-only input. -/
theorem analyze_whitespace_only_witness :
    (toL " \n\t \n ").all isWhitespaceChar = true ∧
      (analyze (toL " \n\t \n ")).wordCount = 0 :=
  ⟨by decide, (analyze_whitespace_only (toL " \n\t \n ") (by decide)).1⟩

/-- C3: when the sentence count or the word count is 0, each of the five
readability scores is 0, while the remaining fields are still computed
normally (each formula guards its own zero denominator; nothing aborts). -/
theorem readability_zero_guard (t : List Char)
    (h : (analyze t).sentenceCount = 0 ∨ (analyze t).wordCount = 0) :
    (analyze t).fleschReadingEase = 0 ∧ (analyze t).fleschKincaidGrade = 0 ∧
      (analyze t).gunningFog = 0 ∧ (analyze t).smogIndex = 0 ∧
      (analyze t).daleChall = 0 ∧
      (analyze t).wordCount = (allWordsOf t).length ∧
      (analyze t).paragraphCount = (paragraphsOf t).length ∧
      (analyze t).sentenceCount = (sentencesOf t).length ∧
      (analyze t).wordFrequency = wordFrequencyOf (allWordsOf t) := by
  have hg : (sentencesOf t).length = 0 ∨ (allWordsOf t).length = 0 := h
  refine ⟨?_, ?_, ?_, ?_, ?_, rfl, rfl, rfl, rfl⟩
  · show fleschReadingEaseOf _ _ _ = 0
    rw [fleschReadingEaseOf, if_pos hg]
  · show fleschKincaidGradeOf _ _ _ = 0
    rw [fleschKincaidGradeOf, if_pos hg]
  · show gunningFogOf _ _ _ = 0
    rw [gunningFogOf, if_pos hg]
  · show smogIndexOf _ _ _ = 0
    rw [smogIndexOf, if_pos hg]
  · show daleChallOf _ _ _ = 0
    rw [daleChallOf, if_pos hg]

/-- Witness for C3: a bare ellipsis has a paragraph but no sentence and no
word, and every readability score collapses to 0. -/
theorem readability_zero_guard_witness :
    ((analyze (toL "...")).sentenceCount = 0 ∨ (analyze (toL "...")).wordCount = 0) ∧
      (analyze (toL "...")).smogIndex = 0 :=
  ⟨Or.inl (by decide),
   (readability_zero_guard (toL "...") (Or.inl (by decide))).2.2.2.1⟩

/-- C4: with positive word and sentence counts, the daleChall field equals
0.1579 times the difficult-word percentage plus 0.0496 times the average
sentence length, with 3.6365 added exactly when the difficult-word ratio
exceeds 0.05. -/
theorem daleChall_formula (t : List Char)
    (hW : 0 < (analyze t).wordCount) (hS : 0 < (analyze t).sentenceCount) :
    (analyze t).daleChall =
      0.1579 * ((difficultWordCountOf t : ℚ) / ((analyze t).wordCount : ℚ) * 100) +
        0.0496 * (((analyze t).wordCount : ℚ) / ((analyze t).sentenceCount : ℚ)) +
        (if 0.05 < (difficultWordCountOf t : ℚ) / ((analyze t).wordCount : ℚ)
          then 3.6365 else 0) := by
  have hW' : 0 < (allWordsOf t).length := hW
  have hS' : 0 < (sentencesOf t).length := hS
  show daleChallOf (allWordsOf t).length (sentencesOf t).length (difficultWordCountOf t) = _
  rw [daleChallOf, if_neg (by omega)]
  rfl

/-- Witness for C4 at a concrete two-word sentence whose words are both
outside the familiar-word list. -/
theorem daleChall_formula_witness :
    0 < (analyze (toL "zzz qqq.")).wordCount ∧
      0 < (analyze (toL "zzz qqq.")).sentenceCount ∧
      (analyze (toL "zzz qqq.")).daleChall =
        0.1579 * ((difficultWordCountOf (toL "zzz qqq.") : ℚ)
              / ((analyze (toL "zzz qqq.")).wordCount : ℚ) * 100) +
          0.0496 * (((analyze (toL "zzz qqq.")).wordCount : ℚ)
              / ((analyze (toL "zzz qqq.")).sentenceCount : ℚ)) +
          (if 0.05 < (difficultWordCountOf (toL "zzz qqq.") : ℚ)
                / ((analyze (toL "zzz qqq.")).wordCount : ℚ)
            then 3.6365 else 0) :=
  ⟨by decide, by decide, daleChall_formula (toL "zzz qqq.") (by decide) (by decide)⟩

/-- C6: the engine is deterministic - the analysis is a pure function of the
input text, so two invocations on the same text give equal results. -/
theorem analyze_deterministic (t : List Char) : analyze t = analyze t := rfl

/-- C7: every non-empty word has at least one syllable. -/
theorem syllables_pos (w : Word) (h : w ≠ []) : 1 ≤ syllables w := by
  unfold syllables
  have hne : w.isEmpty = false := by
    cases w with
    | nil => exact absurd rfl h
    | cons c cs => rfl
  simp only [hne, Bool.false_eq_true, if_false]
  cases hov : syllableOverride w with
  | some n =>
    simp only [hov]
    rw [syllableOverride] at hov
    split_ifs at hov <;> injection hov with h2 <;> omega
  | none =>
    simp only [hov]
    exact le_max_left 1 _

/-- Witness for C7 at a concrete word. -/
theorem syllables_pos_witness : toL "cat" ≠ [] ∧ 1 ≤ syllables (toL "cat") :=
  ⟨by decide, syllables_pos (toL "cat") (by decide)⟩

/-- C8: from a zero baseline, getDelta reports "+100.0%" for any positive
revised value - however large - and "0.0%" for any revised value at most
zero. -/
theorem getDelta_zero_baseline (revised : ℚ) :
    (0 < revised → getDelta 0 revised = "+100.0%") ∧
      (revised ≤ 0 → getDelta 0 revised = "0.0%") := by
  constructor
  · intro h
    simp [getDelta, h]
  · intro h
    simp [getDelta, not_lt.mpr h]

/-- Witness for C8: a large positive revision from zero still reports exactly
"+100.0%", and a flat zero reports "0.0%". -/
theorem getDelta_zero_baseline_witness :
    ((0:ℚ) < 1000000 ∧ getDelta 0 1000000 = "+100.0%") ∧
      ((0:ℚ) ≤ 0 ∧ getDelta 0 0 = "0.0%") :=
  ⟨⟨by norm_num, (getDelta_zero_baseline 1000000).1 (by norm_num)⟩,
   ⟨le_refl 0, (getDelta_zero_baseline 0).2 (le_refl 0)⟩⟩

theorem toFixed1_zero : toFixed1 0 = "0.0" := by
  simp only [toFixed1]
  norm_num
  decide

/-- C10: an unchanged nonzero metric is reported as "+0.0%" (zero percent
with the plus sign), while an unchanged zero metric is reported as "0.0%"
without the sign. -/
theorem getDelta_unchanged (x : ℚ) :
    (x ≠ 0 → getDelta x x = "+0.0%") ∧ getDelta 0 0 = "0.0%" := by
  constructor
  · intro hx
    simp only [getDelta, if_neg hx]
    have hc : (x - x) / x * 100 = 0 := by simp
    rw [hc, if_pos (le_refl (0:ℚ)), toFixed1_zero]
    decide
  · simp [getDelta]

/-- Witness for C10 at a concrete nonzero metric value. -/
theorem getDelta_unchanged_witness :
    ((7:ℚ) ≠ 0 ∧ getDelta 7 7 = "+0.0%") ∧ getDelta 0 0 = "0.0%" :=
  ⟨⟨by norm_num, (getDelta_unchanged 7).1 (by norm_num)⟩, (getDelta_unchanged 0).2⟩

/-- C9: handleCompare analyzes and builds the Gemini prompt exactly when the
API key is configured and both texts are non-empty; when a precondition
fails it only sets an error message, leaving the stored analysis unchanged
and never invoking the engine. -/
theorem handleCompare_guards (k : Option String) (o r : String)
    (summary : String) (s : AppState) :
    ((envFalsy k = true ∨ o = "" ∨ r = "") →
      (handleCompare k o r summary s).analyzeCalls = 0 ∧
        (handleCompare k o r summary s).promptSent = none ∧
        (handleCompare k o r summary s).state.analysis = s.analysis ∧
        (handleCompare k o r summary s).state.err ≠ none) ∧
      (envFalsy k = false → o ≠ "" → r ≠ "" →
        (handleCompare k o r summary s).analyzeCalls = 2 ∧
          (handleCompare k o r summary s).promptSent =
            some (buildPrompt o r
              { original := analyzeText o, revised := analyzeText r })) := by
  constructor
  · intro h
    unfold handleCompare
    by_cases hk : envFalsy k = true
    · simp [hk]
    · have hk' : envFalsy k = false := by simpa using hk
      rcases h with h | h | h
      · exact absurd h hk
      · simp [hk', h]
      · simp [hk', h]
  · intro hk ho hr
    unfold handleCompare
    simp [hk, ho, hr, analyzeText]

/-- Witness for C9: one blocked invocation (missing key) and one successful
invocation on concrete inputs. -/
theorem handleCompare_guards_witness :
    ((envFalsy none = true ∨ ("a" : String) = "" ∨ ("b" : String) = "") ∧
      (handleCompare none "a" "b" "sum" ⟨none, "", none, false⟩).analyzeCalls = 0) ∧
      ((envFalsy (some "key") = false ∧ ("a" : String) ≠ "" ∧ ("b" : String) ≠ "") ∧
        (handleCompare (some "key") "a" "b" "sum" ⟨none, "", none, false⟩).analyzeCalls = 2) :=
  ⟨⟨Or.inl rfl,
    ((handleCompare_guards none "a" "b" "sum" ⟨none, "", none, false⟩).1 (Or.inl rfl)).1⟩,
   ⟨⟨rfl, by decide, by decide⟩,
    ((handleCompare_guards (some "key") "a" "b" "sum" ⟨none, "", none, false⟩).2
      rfl (by decide) (by decide)).1⟩⟩

theorem firstIndexIn_inj : ∀ {ws : List Word} {x y : Word}, x ∈ ws → y ∈ ws →
    firstIndexIn ws x = firstIndexIn ws y → x = y := by
  intro ws
  induction ws with
  | nil => intro x y hx _ _; cases hx
  | cons a l ih =>
    intro x y hx hy h
    simp only [firstIndexIn] at h
    by_cases hax : a = x
    · by_cases hay : a = y
      · exact hax ▸ hay
      · rw [if_pos hax, if_neg hay] at h
        omega
    · by_cases hay : a = y
      · rw [if_neg hax, if_pos hay] at h
        omega
      · rw [if_neg hax, if_neg hay] at h
        have hx2 : x ∈ l := by
          rcases List.mem_cons.mp hx with h2 | h2
          · exact absurd h2.symm hax
          · exact h2
        have hy2 : y ∈ l := by
          rcases List.mem_cons.mp hy with h2 | h2
          · exact absurd h2.symm hay
          · exact h2
        exact ih hx2 hy2 (by omega)

theorem mem_dedupFirst : ∀ (l : List Word) (a : Word), a ∈ dedupFirst l ↔ a ∈ l := by
  intro l
  induction l using dedupFirst.induct with
  | case1 => simp [dedupFirst]
  | case2 x l ih =>
    intro a
    rw [dedupFirst]
    by_cases hax : a = x
    · subst hax; simp
    · simp only [List.mem_cons, ih, List.mem_filter]
      constructor
      · rintro (h | ⟨h, _⟩)
        · exact Or.inl h
        · exact Or.inr h
      · rintro (h | h)
        · exact Or.inl h
        · exact Or.inr ⟨h, by simpa using hax⟩

theorem nodup_dedupFirst : ∀ (l : List Word), (dedupFirst l).Nodup := by
  intro l
  induction l using dedupFirst.induct with
  | case1 => simp [dedupFirst]
  | case2 x l ih =>
    rw [dedupFirst]
    refine List.nodup_cons.mpr ⟨?_, ih⟩
    rw [mem_dedupFirst]
    simp

/-- C5: the word-frequency table holds at most 20 entries, is sorted in
descending order of count, and entries with equal counts appear in order of
their word's first occurrence in the text's word sequence. -/
theorem wordFrequency_ordering (t : List Char) :
    (analyze t).wordFrequency.length ≤ 20 ∧
      List.Pairwise (fun a b : Word × Nat =>
          b.2 < a.2 ∨ (a.2 = b.2 ∧
            firstIndexIn (allWordsOf t) a.1 < firstIndexIn (allWordsOf t) b.1))
        (analyze t).wordFrequency := by
  have hfield : (analyze t).wordFrequency = wordFrequencyOf (allWordsOf t) := rfl
  rw [hfield]
  unfold wordFrequencyOf
  refine ⟨(List.insertionSort (freqRel (allWordsOf t))
    (freqEntries (allWordsOf t))).length_take_le 20, ?_⟩
  have hsorted : List.Pairwise (freqRel (allWordsOf t))
      (List.insertionSort (freqRel (allWordsOf t)) (freqEntries (allWordsOf t))) :=
    List.sorted_insertionSort _ _
  have hperm : List.Perm
      (List.insertionSort (freqRel (allWordsOf t)) (freqEntries (allWordsOf t)))
      (freqEntries (allWordsOf t)) :=
    List.perm_insertionSort _ _
  have hkeys : (freqEntries (allWordsOf t)).map Prod.fst
      = (dedupFirst (allWordsOf t)).filter (fun w => !(stopwords.contains w)) := by
    have hid : (Prod.fst ∘ fun w : Word => (w, (allWordsOf t).count w)) = id := rfl
    rw [freqEntries, List.map_map, hid, List.map_id]
  have hnodupkeys : ((freqEntries (allWordsOf t)).map Prod.fst).Nodup := by
    rw [hkeys]
    exact (nodup_dedupFirst (allWordsOf t)).filter _
  have hnodup2 : ((List.insertionSort (freqRel (allWordsOf t))
      (freqEntries (allWordsOf t))).map Prod.fst).Nodup :=
    ((hperm.map Prod.fst).nodup_iff).mpr hnodupkeys
  have hne : List.Pairwise (fun a b : Word × Nat => a.1 ≠ b.1)
      (List.insertionSort (freqRel (allWordsOf t)) (freqEntries (allWordsOf t))) :=
    List.pairwise_map.mp hnodup2
  have hmem : ∀ e ∈ List.insertionSort (freqRel (allWordsOf t))
      (freqEntries (allWordsOf t)), e.1 ∈ allWordsOf t := by
    intro e he
    have he2 : e ∈ freqEntries (allWordsOf t) := hperm.mem_iff.mp he
    unfold freqEntries at he2
    obtain ⟨w, hw, hwe⟩ := List.mem_map.mp he2
    have hw2 : w ∈ dedupFirst (allWordsOf t) := (List.mem_filter.mp hw).1
    have hw3 : w ∈ allWordsOf t := (mem_dedupFirst _ w).mp hw2
    rw [← hwe]
    exact hw3
  have htarget : List.Pairwise (fun a b : Word × Nat =>
      b.2 < a.2 ∨ (a.2 = b.2 ∧
        firstIndexIn (allWordsOf t) a.1 < firstIndexIn (allWordsOf t) b.1))
      (List.insertionSort (freqRel (allWordsOf t)) (freqEntries (allWordsOf t))) := by
    refine (hsorted.and hne).imp_of_mem ?_
    intro a b ha hb hab
    rcases hab with ⟨hrel, hneq⟩
    rcases hrel with hlt | ⟨heq, hle⟩
    · exact Or.inl hlt
    · refine Or.inr ⟨heq, lt_of_le_of_ne hle ?_⟩
      intro hidx
      exact hneq (firstIndexIn_inj (hmem a ha) (hmem b hb) hidx)
  exact htarget.sublist (List.take_sublist _ _)

end ChangeTracker
